import Mathlib

/-!
Verification of the orchestration core of the `scripter` repository
(`src/ScriptBuilder.tsx`): the reducer-driven task store, the step
sequencer (completion detection, debounce, cleanup) and the task handle
(`useTask().execute`).  Every definition below is a direct shallow
embedding of the corresponding TypeScript; JS objects are modelled as
association lists preserving insertion order, `Date.now()` is passed in
explicitly, and React's per-render ref is modelled as an explicit
`Nat → Bool` map threaded through the evaluation step.
-/

namespace Scripter

/-- Task identifiers are strings (`${currentIndex}-${randomSuffix}` in the source). -/
abbrev TaskId := String

/-- The four task statuses of `type TaskStatus` in `ScriptBuilder.tsx`. -/
inductive TaskStatus
  | pending
  | running
  | completed
  | failed
deriving DecidableEq, Repr

/-- The `Task` interface of `ScriptBuilder.tsx`.  `error` holds the message of the
stored `Error`; `startTime` and `endTime` are wall-clock instants; `index` is the
sequencer index active at registration time (the spec calls it `stepIndex`). -/
structure Task where
  id : TaskId
  name : String
  status : TaskStatus
  error : Option String
  startTime : Option Nat
  endTime : Option Nat
  parentId : Option TaskId
  childIds : List TaskId
  index : Nat
deriving DecidableEq, Repr

/-- The `TaskMap` object, as an insertion-ordered association list (JS objects
preserve insertion order, which `Object.values` and `Object.entries` expose). -/
abbrev TaskMap := List (TaskId × Task)

/-- The reducer state: `{ tasks, rootTaskIds, completedTaskIds }`. -/
structure TaskState where
  tasks : TaskMap
  rootTaskIds : List TaskId
  completedTaskIds : List TaskId
deriving DecidableEq, Repr

/-- The `TaskAction` union consumed by `taskReducer`. -/
inductive TaskAction
  | registerTask (task : Task)
  | startTask (id : TaskId)
  | completeTask (id : TaskId)
  | failTask (id : TaskId) (error : String)
  | setParent (id : TaskId) (parentId : TaskId)
  | cleanupTasks (currentIndex : Nat)
deriving DecidableEq, Repr

/-- Key lookup, `state.tasks[id]` in JS (keys are unique in the maps the reducer
builds, so first-match lookup coincides with JS object access). -/
def findTask : TaskMap → TaskId → Option Task
  | [], _ => none
  | kv :: rest, k => if kv.1 = k then some kv.2 else findTask rest k

/-- The JS spread `{...m, [k]: v}`: an existing key keeps its position and gets the
new value, a new key is appended at the end. -/
def updateAssoc : TaskMap → TaskId → Task → TaskMap
  | [], k, v => [(k, v)]
  | kv :: rest, k, v => if kv.1 = k then (k, v) :: rest else kv :: updateAssoc rest k v

/-- Direct translation of `taskReducer` from `src/ScriptBuilder.tsx` lines 48-162.
`now` stands for `Date.now()` at the instant the action is processed.  Note that
`SET_PARENT` writes the `[id]` entry first and the `[parentId]` entry second,
exactly as the object literal does (so the later key wins if they collide), and
that `REGISTER_TASK` consults `task.parentId` only to decide root membership. -/
def taskReducer (now : Nat) (state : TaskState) (action : TaskAction) : TaskState :=
  match action with
  | .registerTask task =>
    { state with
      tasks := updateAssoc state.tasks task.id task
      rootTaskIds :=
        if task.parentId.isSome then state.rootTaskIds
        else state.rootTaskIds ++ [task.id] }
  | .startTask id =>
    match findTask state.tasks id with
    | none => state
    | some task =>
      { state with
        tasks := updateAssoc state.tasks id
          { task with status := .running, startTime := some now } }
  | .completeTask id =>
    match findTask state.tasks id with
    | none => state
    | some task =>
      { state with
        tasks := updateAssoc state.tasks id
          { task with status := .completed, endTime := some now }
        completedTaskIds := state.completedTaskIds ++ [id] }
  | .failTask id err =>
    match findTask state.tasks id with
    | none => state
    | some task =>
      { state with
        tasks := updateAssoc state.tasks id
          { task with status := .failed, error := some err, endTime := some now } }
  | .setParent id parentId =>
    match findTask state.tasks id, findTask state.tasks parentId with
    | some task, some parent =>
      { state with
        tasks :=
          updateAssoc
            (updateAssoc state.tasks id { task with parentId := some parentId })
            parentId
            { parent with childIds := parent.childIds ++ [id] }
        rootTaskIds := state.rootTaskIds.filter (fun tid => decide (tid ≠ id)) }
    | _, _ => state
  | .cleanupTasks currentIndex =>
    let filteredTasks := state.tasks.filter (fun kv => decide (kv.2.index ≤ currentIndex))
    { state with
      tasks := filteredTasks
      rootTaskIds := state.rootTaskIds.filter (fun id => (findTask filteredTasks id).isSome) }

/-- The initial reducer state passed to `useReducer`. -/
def emptyState : TaskState :=
  { tasks := [], rootTaskIds := [], completedTaskIds := [] }

/-- `Object.values(state.tasks).filter(task => task.index === childIndex)`:
the tasks belonging to step `childIndex`. -/
def stepTasks (state : TaskState) (childIndex : Nat) : List Task :=
  (state.tasks.map Prod.snd).filter (fun t => decide (t.index = childIndex))

/-- The body of the completion test inside `isCurrentChildComplete`:
`childTasks.length > 0 && childTasks.every(t => completedTaskIds.includes(t.id) || t.status === "completed")`. -/
def stepIsComplete (state : TaskState) (childIndex : Nat) : Bool :=
  decide (0 < (stepTasks state childIndex).length) &&
    (stepTasks state childIndex).all
      (fun t => state.completedTaskIds.contains t.id || decide (t.status = .completed))

/-- `isCurrentChildComplete` (lines 209-231): for an out-of-range index the child is
not a valid element and the function returns `true` WITHOUT touching the ref; for an
in-range index it computes the completion test and writes the verdict into
`previousCompletionState.current[childIndex]` before returning it.  The returned
pair is (result, updated ref). -/
def isCurrentChildComplete (childCount : Nat) (state : TaskState)
    (prevRef : Nat → Bool) (childIndex : Nat) : Bool × (Nat → Bool) :=
  if childIndex < childCount then
    let isComplete := stepIsComplete state childIndex
    (isComplete, fun j => if j = childIndex then isComplete else prevRef j)
  else
    (true, prevRef)

/-- One run of the progression effect (lines 239-250): it first calls
`isCurrentChildComplete(currentIndex)` (which updates the ref), then reads
`previousCompletionState.current[currentIndex]` from the ref, and advances when
both flags hold and `currentIndex < childrenArray.length - 1`.  Returns the new
ref and the new index. -/
def progressionStep (childCount : Nat) (state : TaskState)
    (prevRef : Nat → Bool) (currentIndex : Nat) : (Nat → Bool) × Nat :=
  let r := isCurrentChildComplete childCount state prevRef currentIndex
  let currentComplete := r.1
  let updatedRef := r.2
  let previousComplete := updatedRef currentIndex
  if currentComplete && previousComplete && decide (currentIndex < childCount - 1) then
    (updatedRef, currentIndex + 1)
  else
    (updatedRef, currentIndex)

/-- `n` consecutive runs of the progression effect with no intervening store
mutation (the store snapshot stays fixed). -/
def evalSteps (childCount : Nat) (state : TaskState) :
    Nat → (Nat → Bool) × Nat → (Nat → Bool) × Nat
  | 0, ri => ri
  | n + 1, ri => evalSteps childCount state n (progressionStep childCount state ri.1 ri.2)

/-- A JS thrown value: either a proper `Error` (carrying its message) or any other
value (carrying `String(error)`). -/
inductive Thrown
  | jsError (message : String)
  | otherValue (stringRep : String)
deriving DecidableEq, Repr

/-- `error instanceof Error ? error : new Error(String(error))`, reduced to the
message stored on the resulting `Error`. -/
def normalizeError : Thrown → String
  | .jsError m => m
  | .otherValue s => s

/-- The observable outcome of `execute`: the not-initialized throw, a resolution
(with the resolved JS value, `none` being `undefined`), or a rejection re-raising
the original thrown value. -/
inductive ExecResult
  | notInitialized
  | resolved (value : Option Nat)
  | rejected (e : Thrown)
deriving DecidableEq, Repr

/-- `execute` from `useTask` (lines 376-395).  `taskIdRef` is the handle's ref
content; `body` is the awaited outcome of `fn()` (its resolved JS value, `Option Nat`
modelling `undefined | number`, or the value it threw).  The source runs
`startTask; await fn(); completeTask` and never returns the awaited value, so a
successful call resolves with `undefined`; on a throw it dispatches `FAIL_TASK`
with the normalized error, then re-throws the original value. -/
def execute (startNow endNow : Nat) (taskIdRef : Option TaskId)
    (body : Except Thrown (Option Nat)) (state : TaskState) : ExecResult × TaskState :=
  match taskIdRef with
  | none => (.notInitialized, state)
  | some id =>
    let s1 := taskReducer startNow state (.startTask id)
    match body with
    | .ok _v => (.resolved none, taskReducer endNow s1 (.completeTask id))
    | .error e => (.rejected e, taskReducer endNow s1 (.failTask id (normalizeError e)))

/-- The task object built by `registerTask` (lines 252-270): id is
`${currentIndex}-${suffix}`, status `pending`, empty `childIds`, `index` set to the
sequencer index active at call time. -/
def freshTask (currentIndex : Nat) (suffix name : String) (parentId : Option TaskId) : Task :=
  { id := toString currentIndex ++ "-" ++ suffix
    name := name
    status := .pending
    error := none
    startTime := none
    endTime := none
    parentId := parentId
    childIds := []
    index := currentIndex }

/-- Fixture: one root task registered at step 0. -/
def oneTaskState : TaskState :=
  taskReducer 0 emptyState (.registerTask (freshTask 0 "t" "work" none))

/-- Fixture: the step-0 task has completed once. -/
def oneDoneState : TaskState :=
  taskReducer 1 oneTaskState (.completeTask "0-t")

/-- Fixture: `complete` was dispatched twice for the same task. -/
def doubleCompleteState : TaskState :=
  taskReducer 2 oneDoneState (.completeTask "0-t")

/-- Fixture: the completed task was started again, so its status is `running`
while its id already sits in `completedTaskIds`. -/
def runningAfterDoneState : TaskState :=
  taskReducer 2 oneDoneState (.startTask "0-t")

/-- Fixture: the step-0 task has failed. -/
def oneFailedState : TaskState :=
  taskReducer 1 oneTaskState (.failTask "0-t" "boom")

/-- Fixture: the failed task then receives a `COMPLETE_TASK` dispatch. -/
def failedThenCompletedState : TaskState :=
  taskReducer 2 oneFailedState (.completeTask "0-t")

/-- Fixture: two parentless tasks registered at step 0. -/
def twoTaskState : TaskState :=
  taskReducer 0
    (taskReducer 0 emptyState (.registerTask (freshTask 0 "p" "parent" none)))
    (.registerTask (freshTask 0 "c" "child" none))

/-- Fixture: a registration that already carries a `parentId` pointing at an
existing task (the source makes no structural link in this case). -/
def childRegisteredState : TaskState :=
  taskReducer 0
    (taskReducer 0 emptyState (.registerTask (freshTask 0 "p" "parent" none)))
    (.registerTask (freshTask 0 "c" "child" (some "0-p")))

/-- Fixture: `SET_PARENT c p` dispatched once on the two-task store. -/
def setParentOnceState : TaskState :=
  taskReducer 1 twoTaskState (.setParent "0-c" "0-p")

/-- Fixture: the same `SET_PARENT c p` dispatched a second time. -/
def setParentTwiceState : TaskState :=
  taskReducer 2 setParentOnceState (.setParent "0-c" "0-p")

/-- Fixture: three parentless tasks registered at step 0. -/
def threeTaskState : TaskState :=
  taskReducer 0 twoTaskState (.registerTask (freshTask 0 "q" "other" none))

/-- Modelled from the spec (C3 refinement target): `isComplete = childTasks.length
> 0 AND every task in childTasks has status == completed`, read literally with the
status test only. -/
def specStepCompleteStatusOnly (state : TaskState) (childIndex : Nat) : Bool :=
  decide (0 < (stepTasks state childIndex).length) &&
    (stepTasks state childIndex).all (fun t => decide (t.status = .completed))

/-- The amended spec-side completion predicate for C3: the step's task set is
non-empty and every task in it either has status `completed` or has its id in
`completedTaskIds`. -/
def specStepCompleteAmended (state : TaskState) (childIndex : Nat) : Prop :=
  stepTasks state childIndex ≠ [] ∧
    ∀ t ∈ stepTasks state childIndex,
      t.id ∈ state.completedTaskIds ∨ t.status = .completed

/-- Number of occurrences of `id` in a list of task ids. -/
def countId (id : TaskId) : List TaskId → Nat
  | [] => 0
  | x :: rest => (if x = id then 1 else 0) + countId id rest

/-- Total number of occurrences of `id` across the `childIds` lists of every task
in the map. -/
def childOcc (id : TaskId) : TaskMap → Nat
  | [] => 0
  | kv :: rest => countId id kv.2.childIds + childOcc id rest

/-- Total number of structural references to `id` in a store state: occurrences in
`rootTaskIds` plus occurrences in any task's `childIds`. -/
def linkOcc (s : TaskState) (id : TaskId) : Nat :=
  countId id s.rootTaskIds + childOcc id s.tasks

/-- The single-link invariant of C7: every registered task is referenced exactly
once — from `rootTaskIds` or from exactly one parent's `childIds`, never both —
and unregistered ids are referenced nowhere. -/
def linkInvariant (s : TaskState) : Prop :=
  ∀ id, linkOcc s id = if (findTask s.tasks id).isSome then 1 else 0

/-- The disciplined reducer histories under which the single-link invariant is
preserved (C7 amended): registration always uses a fresh id, no `parentId` and
empty `childIds` (exactly what `registerTask` produces for a parentless call);
`SET_PARENT` is only dispatched for a child currently listed in `rootTaskIds` and
distinct from its parent; `START/COMPLETE/FAIL` are unrestricted. -/
inductive CleanReach : TaskState → Prop
  | empty : CleanReach emptyState
  | register (s : TaskState) (task : Task) (now : Nat) :
      CleanReach s →
      findTask s.tasks task.id = none →
      task.parentId = none →
      task.childIds = [] →
      CleanReach (taskReducer now s (.registerTask task))
  | start (s : TaskState) (id : TaskId) (now : Nat) :
      CleanReach s → CleanReach (taskReducer now s (.startTask id))
  | complete (s : TaskState) (id : TaskId) (now : Nat) :
      CleanReach s → CleanReach (taskReducer now s (.completeTask id))
  | fail (s : TaskState) (id : TaskId) (err : String) (now : Nat) :
      CleanReach s → CleanReach (taskReducer now s (.failTask id err))
  | reparent (s : TaskState) (id p : TaskId) (now : Nat) :
      CleanReach s →
      id ≠ p →
      id ∈ s.rootTaskIds →
      CleanReach (taskReducer now s (.setParent id p))

-- Theorems: helper lemmas about the association-list primitives, then one
-- theorem per claim.

/-- Looking up the key just written by a JS spread returns the new value. -/
theorem findTask_updateAssoc_self (m : TaskMap) (k : TaskId) (v : Task) :
    findTask (updateAssoc m k v) k = some v := by
  induction m with
  | nil => simp [updateAssoc, findTask]
  | cons kv rest ih =>
    by_cases h : kv.1 = k
    · simp [updateAssoc, h, findTask]
    · simp [updateAssoc, h, findTask, ih]

/-- A JS spread leaves every other key unchanged. -/
theorem findTask_updateAssoc_ne (m : TaskMap) (k k' : TaskId) (v : Task) (h : k' ≠ k) :
    findTask (updateAssoc m k v) k' = findTask m k' := by
  induction m with
  | nil => simp [updateAssoc, findTask, Ne.symm h]
  | cons kv rest ih =>
    by_cases hk : kv.1 = k
    · subst hk
      simp [updateAssoc, findTask, Ne.symm h]
    · simp only [updateAssoc, if_neg hk]
      by_cases hk' : kv.1 = k'
      · simp [findTask, hk']
      · simp [findTask, hk', ih]

/-- Counting distributes over list concatenation. -/
theorem countId_append (id : TaskId) (l1 l2 : List TaskId) :
    countId id (l1 ++ l2) = countId id l1 + countId id l2 := by
  induction l1 with
  | nil => simp [countId]
  | cons x rest ih => simp [countId, ih]; omega

/-- Filtering out `id` leaves zero occurrences of `id`. -/
theorem countId_filter_self (id : TaskId) (l : List TaskId) :
    countId id (l.filter (fun tid => decide (tid ≠ id))) = 0 := by
  induction l with
  | nil => rfl
  | cons x rest ih =>
    by_cases hx : x = id <;> simp_all [List.filter_cons, countId]

/-- Filtering out `id` keeps every occurrence of any other id. -/
theorem countId_filter_other (id x : TaskId) (l : List TaskId) (h : x ≠ id) :
    countId x (l.filter (fun tid => decide (tid ≠ id))) = countId x l := by
  induction l with
  | nil => rfl
  | cons y rest ih =>
    by_cases hy : y = id
    · subst hy
      simp_all [List.filter_cons, countId, Ne.symm h]
    · simp_all [List.filter_cons, countId]

/-- A member occurs at least once. -/
theorem countId_pos_of_mem (id : TaskId) (l : List TaskId) (h : id ∈ l) :
    0 < countId id l := by
  induction l with
  | nil => cases h
  | cons x rest ih =>
    rcases List.mem_cons.mp h with hx | hx
    · simp [countId, hx.symm]
    · have := ih hx
      simp [countId]
      omega

/-- Updating an absent key is an append. -/
theorem updateAssoc_of_none (m : TaskMap) (k : TaskId) (v : Task)
    (h : findTask m k = none) : updateAssoc m k v = m ++ [(k, v)] := by
  induction m with
  | nil => rfl
  | cons kv rest ih =>
    by_cases hk : kv.1 = k
    · rw [findTask, if_pos hk] at h
      cases h
    · rw [findTask, if_neg hk] at h
      simp [updateAssoc, hk, ih h]

/-- Child-occurrence counting distributes over map concatenation. -/
theorem childOcc_append (id : TaskId) (m1 m2 : TaskMap) :
    childOcc id (m1 ++ m2) = childOcc id m1 + childOcc id m2 := by
  induction m1 with
  | nil => simp [childOcc]
  | cons kv rest ih => simp [childOcc, ih]; omega

/-- Updating a present key exchanges the old entry's child contributions for the
new one's (stated additively to stay in `Nat`). -/
theorem childOcc_updateAssoc_some (m : TaskMap) (k : TaskId) (v t : Task)
    (id : TaskId) (hfind : findTask m k = some t) :
    childOcc id (updateAssoc m k v) + countId id t.childIds =
      childOcc id m + countId id v.childIds := by
  induction m with
  | nil => cases hfind
  | cons kv rest ih =>
    by_cases hk : kv.1 = k
    · rw [findTask, if_pos hk] at hfind
      injection hfind with ht
      subst ht
      simp only [updateAssoc, if_pos hk, childOcc]
      omega
    · rw [findTask, if_neg hk] at hfind
      simp only [updateAssoc, if_neg hk, childOcc]
      have hrec := ih hfind
      omega

/-- C9: every store mutator is a total function, and on an unknown id `start`,
`complete`, `fail` and `setParent` (the latter also when only the parent id is
unknown) return the store state unchanged; nothing is thrown because the reducer
has no fallible path. -/
theorem C9_unknown_id_noop (now : Nat) (s : TaskState) (id pid : TaskId) (e : String)
    (h : findTask s.tasks id = none) :
    taskReducer now s (.startTask id) = s ∧
    taskReducer now s (.completeTask id) = s ∧
    taskReducer now s (.failTask id e) = s ∧
    taskReducer now s (.setParent id pid) = s ∧
    taskReducer now s (.setParent pid id) = s := by
  refine ⟨?_, ?_, ?_, ?_, ?_⟩
  · simp [taskReducer, h]
  · simp [taskReducer, h]
  · simp [taskReducer, h]
  · simp [taskReducer, h]
  · cases hp : findTask s.tasks pid <;> simp [taskReducer, h, hp]

/-- Witness for C9 at a concrete store: one task `0-t` is registered and the
operations name the unknown id `ghost`. -/
theorem C9_unknown_id_noop_witness :
    findTask oneTaskState.tasks "ghost" = none ∧
    (taskReducer 7 oneTaskState (.startTask "ghost") = oneTaskState ∧
      taskReducer 7 oneTaskState (.completeTask "ghost") = oneTaskState ∧
      taskReducer 7 oneTaskState (.failTask "ghost" "e") = oneTaskState ∧
      taskReducer 7 oneTaskState (.setParent "ghost" "0-t") = oneTaskState ∧
      taskReducer 7 oneTaskState (.setParent "0-t" "ghost") = oneTaskState) :=
  ⟨by decide, C9_unknown_id_noop 7 oneTaskState "ghost" "0-t" "e" (by decide)⟩

/-- C10: the store enforces no terminality.  For any existing task — whatever its
status, including `completed` or `failed` — `start` rewrites the status to
`running` and overwrites `startTime`, and `complete` rewrites the status to
`completed`, stamps `endTime` and appends the id to `completedTaskIds`. -/
theorem C10_no_terminal_enforcement (now : Nat) (s : TaskState) (id : TaskId) (t : Task)
    (h : findTask s.tasks id = some t) :
    findTask (taskReducer now s (.startTask id)).tasks id =
      some { t with status := .running, startTime := some now } ∧
    findTask (taskReducer now s (.completeTask id)).tasks id =
      some { t with status := .completed, endTime := some now } ∧
    (taskReducer now s (.completeTask id)).completedTaskIds =
      s.completedTaskIds ++ [id] := by
  refine ⟨?_, ?_, ?_⟩ <;> simp [taskReducer, h, findTask_updateAssoc_self]

/-- Witness for C10 at a concrete store whose task `0-t` is already `failed`:
`start` puts it back to `running` and `complete` marks it `completed` and appends
its id to `completedTaskIds`. -/
theorem C10_no_terminal_enforcement_witness :
    findTask oneFailedState.tasks "0-t" =
      some { freshTask 0 "t" "work" none with
               status := .failed, error := some "boom", endTime := some 1 } ∧
    (findTask (taskReducer 5 oneFailedState (.startTask "0-t")).tasks "0-t" =
      some { freshTask 0 "t" "work" none with
               status := .running, error := some "boom", endTime := some 1,
               startTime := some 5 } ∧
     findTask (taskReducer 5 oneFailedState (.completeTask "0-t")).tasks "0-t" =
      some { freshTask 0 "t" "work" none with
               status := .completed, error := some "boom", endTime := some 5 } ∧
     (taskReducer 5 oneFailedState (.completeTask "0-t")).completedTaskIds = ["0-t"]) :=
  ⟨by decide,
    C10_no_terminal_enforcement 5 oneFailedState "0-t"
      { freshTask 0 "t" "work" none with
          status := .failed, error := some "boom", endTime := some 1 } (by decide)⟩

/-- C6: after `CLEANUP_TASKS k` (the spec's `pruneAbove(k)`), every surviving task
has `index ≤ k`, every surviving entry is byte-for-byte an entry of the old map
(status, timestamps, error, parent links and children identical), every old entry
with `index ≤ k` survives, `rootTaskIds` is exactly the old list filtered to
surviving ids, and `completedTaskIds` is untouched. -/
theorem C6_pruneAbove_spec (now k : Nat) (s : TaskState) :
    (∀ kv ∈ (taskReducer now s (.cleanupTasks k)).tasks, kv.2.index ≤ k) ∧
    (∀ kv ∈ (taskReducer now s (.cleanupTasks k)).tasks, kv ∈ s.tasks) ∧
    (∀ kv ∈ s.tasks, kv.2.index ≤ k → kv ∈ (taskReducer now s (.cleanupTasks k)).tasks) ∧
    (taskReducer now s (.cleanupTasks k)).rootTaskIds =
      s.rootTaskIds.filter
        (fun id => (findTask (taskReducer now s (.cleanupTasks k)).tasks id).isSome) ∧
    (taskReducer now s (.cleanupTasks k)).completedTaskIds = s.completedTaskIds := by
  refine ⟨?_, ?_, ?_, ?_, ?_⟩
  · intro kv hkv
    have := (List.mem_filter.mp hkv).2
    exact of_decide_eq_true this
  · intro kv hkv
    exact (List.mem_filter.mp hkv).1
  · intro kv hkv hle
    exact List.mem_filter.mpr ⟨hkv, decide_eq_true hle⟩
  · rfl
  · rfl

/-- Witness for C6: pruning above index 0 on a store holding a step-0 task leaves
that task intact (the three quantified parts instantiated at the surviving entry). -/
theorem C6_pruneAbove_spec_witness :
    ((taskReducer 9 oneDoneState (.cleanupTasks 0)).rootTaskIds =
      oneDoneState.rootTaskIds.filter
        (fun id => (findTask (taskReducer 9 oneDoneState (.cleanupTasks 0)).tasks id).isSome)) ∧
    (taskReducer 9 oneDoneState (.cleanupTasks 0)).completedTaskIds =
      oneDoneState.completedTaskIds :=
  ⟨(C6_pruneAbove_spec 9 0 oneDoneState).2.2.2.1,
   (C6_pruneAbove_spec 9 0 oneDoneState).2.2.2.2⟩

/-- C2 counterexample: dispatching `COMPLETE_TASK` twice for the same registered
task appends its id to `completedTaskIds` twice — the store does not deduplicate,
so "appended exactly once even if called multiple times" is false. -/
theorem C2_counterexample :
    doubleCompleteState.completedTaskIds = ["0-t", "0-t"] ∧
    doubleCompleteState.completedTaskIds.count "0-t" = 2 := by
  decide

/-- C2 amended: `completedTaskIds` only ever grows — every reducer action extends
it on the right — and each `complete(id)` on an existing task appends `id` once
per call (so repeated calls append repeated copies; single-append holds only when
callers invoke `complete` at most once per task). -/
theorem C2_completedTaskIds_monotone (now : Nat) (s : TaskState) (a : TaskAction)
    (id : TaskId) (t : Task) (h : findTask s.tasks id = some t) :
    (∃ tail, (taskReducer now s a).completedTaskIds = s.completedTaskIds ++ tail) ∧
    (taskReducer now s (.completeTask id)).completedTaskIds =
      s.completedTaskIds ++ [id] := by
  constructor
  · cases a with
    | registerTask task => exact ⟨[], by simp [taskReducer]⟩
    | startTask i =>
      cases hf : findTask s.tasks i with
      | none => exact ⟨[], by simp [taskReducer, hf]⟩
      | some tt => exact ⟨[], by simp [taskReducer, hf]⟩
    | completeTask i =>
      cases hf : findTask s.tasks i with
      | none => exact ⟨[], by simp [taskReducer, hf]⟩
      | some tt => exact ⟨[i], by simp [taskReducer, hf]⟩
    | failTask i e =>
      cases hf : findTask s.tasks i with
      | none => exact ⟨[], by simp [taskReducer, hf]⟩
      | some tt => exact ⟨[], by simp [taskReducer, hf]⟩
    | setParent i p =>
      cases hf : findTask s.tasks i with
      | none => exact ⟨[], by simp [taskReducer, hf]⟩
      | some tt =>
        cases hp : findTask s.tasks p with
        | none => exact ⟨[], by simp [taskReducer, hf, hp]⟩
        | some pt => exact ⟨[], by simp [taskReducer, hf, hp]⟩
    | cleanupTasks i => exact ⟨[], by simp [taskReducer]⟩
  · simp [taskReducer, h]

/-- Witness for C2's amended statement: a third `complete` on `0-t` extends the
already-duplicated list by one more copy. -/
theorem C2_completedTaskIds_monotone_witness :
    findTask doubleCompleteState.tasks "0-t" =
      some { freshTask 0 "t" "work" none with status := .completed, endTime := some 2 } ∧
    (taskReducer 3 doubleCompleteState (.completeTask "0-t")).completedTaskIds =
      doubleCompleteState.completedTaskIds ++ ["0-t"] :=
  ⟨by decide,
   (C2_completedTaskIds_monotone 3 doubleCompleteState (.completeTask "0-t") "0-t"
      { freshTask 0 "t" "work" none with status := .completed, endTime := some 2 }
      (by decide)).2⟩

/-- C1 (code bug): the debounce is ineffective.  The progression effect calls
`isCurrentChildComplete`, which overwrites `previousCompletionState.current[i]`
with the current verdict, and only then reads `previousComplete` from that slot —
so it always re-reads the value just written.  Concretely: with the ref all-`false`
(the predicate never held on any earlier evaluation) and a store whose single
step-0 task just completed, ONE evaluation advances `currentIndex` from 0 to 1. -/
theorem C1_single_true_reading_advances :
    (∀ j, (fun _ => false : Nat → Bool) j = false) ∧
    stepIsComplete oneDoneState 0 = true ∧
    (progressionStep 2 oneDoneState (fun _ => false) 0).2 = 1 := by
  exact ⟨fun _ => rfl, by decide, by decide⟩

/-- C3 counterexample: in a reachable store (register `0-t`, complete it, start it
again) the task at step 0 has status `running` while its id sits in
`completedTaskIds`; the code's predicate is `true`, yet "every task in the set has
status completed" is `false` — so the claimed iff fails. -/
theorem C3_counterexample :
    (isCurrentChildComplete 1 runningAfterDoneState (fun _ => false) 0).1 = true ∧
    (stepTasks runningAfterDoneState 0).length = 1 ∧
    specStepCompleteStatusOnly runningAfterDoneState 0 = false := by
  decide

/-- C3 amended: for an in-range index, the code's completion predicate holds iff
the step's task set is non-empty and every task in it is either `completed` by
status or listed in `completedTaskIds`; in particular a step with zero registered
tasks never satisfies the predicate. -/
theorem C3_step_complete_iff (cc : Nat) (state : TaskState) (ref : Nat → Bool)
    (i : Nat) (hin : i < cc) :
    ((isCurrentChildComplete cc state ref i).1 = true ↔ specStepCompleteAmended state i) ∧
    (stepTasks state i = [] → (isCurrentChildComplete cc state ref i).1 = false) := by
  constructor
  · rw [isCurrentChildComplete, if_pos hin]
    simp only [stepIsComplete, specStepCompleteAmended, Bool.and_eq_true,
      decide_eq_true_eq, List.all_eq_true, Bool.or_eq_true, List.elem_iff,
      List.length_pos]
  · intro hempty
    rw [isCurrentChildComplete, if_pos hin]
    simp [stepIsComplete, hempty]

/-- Witness for C3's amended statement at a concrete in-range index: step 0 of a
two-step list over the store where `0-t` completed. -/
theorem C3_step_complete_iff_witness :
    0 < 2 ∧
    ((isCurrentChildComplete 2 oneDoneState (fun _ => false) 0).1 = true ↔
      specStepCompleteAmended oneDoneState 0) :=
  ⟨by decide, (C3_step_complete_iff 2 oneDoneState (fun _ => false) 0 (by decide)).1⟩

/-- C4 counterexample: the step-0 task reaches `failed`, but a later
`COMPLETE_TASK` store mutation flips it to `completed`, after which a single
evaluation advances `currentIndex` past 0 — "never advances, no matter what
further store mutations occur" is false. -/
theorem C4_counterexample :
    (findTask oneFailedState.tasks "0-t").map Task.status = some .failed ∧
    (progressionStep 2 failedThenCompletedState (fun _ => false) 0).2 = 1 := by
  decide

/-- C4 amended: if some task of the current step has status `failed` and its id
does not occur in `completedTaskIds`, then the completion predicate is false, so
any number of evaluations with no intervening store mutation leaves `currentIndex`
unchanged (there is no automatic skip or retry). -/
theorem C4_failed_task_stalls (cc : Nat) (s : TaskState) (i n : Nat)
    (ref : Nat → Bool) (t : Task)
    (hmem : t ∈ s.tasks.map Prod.snd) (hidx : t.index = i) (hst : t.status = .failed)
    (hnc : s.completedTaskIds.contains t.id = false) :
    (evalSteps cc s n (ref, i)).2 = i := by
  have hmem' : t ∈ stepTasks s i := List.mem_filter.mpr ⟨hmem, by simp [hidx]⟩
  have hfalse : stepIsComplete s i = false := by
    apply Bool.eq_false_iff.mpr
    intro htrue
    rw [stepIsComplete, Bool.and_eq_true] at htrue
    have hall := List.all_eq_true.mp htrue.2 t hmem'
    simp only [Bool.or_eq_true, decide_eq_true_eq] at hall
    rcases hall with hc | hs
    · rw [hnc] at hc
      exact Bool.false_ne_true hc
    · rw [hst] at hs
      cases hs
  have hstep : ∀ r : Nat → Bool, (progressionStep cc s r i).2 = i := by
    intro r
    by_cases hin : i < cc
    · simp [progressionStep, isCurrentChildComplete, hin, hfalse]
    · have hlt : ¬ i < cc - 1 := by omega
      simp [progressionStep, isCurrentChildComplete, hin, hlt]
  induction n generalizing ref with
  | zero => simp [evalSteps]
  | succ m ih =>
    show (evalSteps cc s m (progressionStep cc s ref i)).2 = i
    have hpair : progressionStep cc s ref i = ((progressionStep cc s ref i).1, i) :=
      Prod.ext_iff.mpr ⟨rfl, hstep ref⟩
    rw [hpair]
    exact ih (progressionStep cc s ref i).1

/-- Witness for C4's amended statement: the store where `0-t` failed, three
consecutive evaluations of a two-step list, index pinned at 0. -/
theorem C4_failed_task_stalls_witness :
    ({ freshTask 0 "t" "work" none with
        status := .failed, error := some "boom", endTime := some 1 } ∈
      oneFailedState.tasks.map Prod.snd) ∧
    (evalSteps 2 oneFailedState 3 (fun _ => false, 0)).2 = 0 :=
  ⟨by decide,
   C4_failed_task_stalls 2 oneFailedState 0 3 (fun _ => false)
     { freshTask 0 "t" "work" none with
         status := .failed, error := some "boom", endTime := some 1 }
     (by decide) (by decide) (by decide) (by decide)⟩

/-- Filtering a list twice with the same predicate equals filtering once. -/
theorem filter_idem (f : TaskId → Bool) (l : List TaskId) :
    (l.filter f).filter f = l.filter f := by
  induction l with
  | nil => rfl
  | cons x rest ih => cases hx : f x <;> simp [List.filter_cons, hx, ih]

/-- The complete effect of one `SET_PARENT` dispatch when both ids resolve and
differ: the child's `parentId` is overwritten, the parent's `childIds` gets the
child appended, all other entries are untouched, the child is filtered out of
`rootTaskIds`, and `completedTaskIds` is unchanged. -/
theorem setParent_effects (n : Nat) (s : TaskState) (id p : TaskId)
    (task parent : Task)
    (hid : findTask s.tasks id = some task)
    (hp : findTask s.tasks p = some parent)
    (hne : id ≠ p) :
    findTask (taskReducer n s (.setParent id p)).tasks id =
      some { task with parentId := some p } ∧
    findTask (taskReducer n s (.setParent id p)).tasks p =
      some { parent with childIds := parent.childIds ++ [id] } ∧
    (∀ x, x ≠ id → x ≠ p →
      findTask (taskReducer n s (.setParent id p)).tasks x = findTask s.tasks x) ∧
    (taskReducer n s (.setParent id p)).rootTaskIds =
      s.rootTaskIds.filter (fun tid => decide (tid ≠ id)) ∧
    (taskReducer n s (.setParent id p)).completedTaskIds = s.completedTaskIds := by
  refine ⟨?_, ?_, ?_, ?_, ?_⟩
  · simp only [taskReducer, hid, hp]
    rw [findTask_updateAssoc_ne _ _ _ _ hne, findTask_updateAssoc_self]
  · simp only [taskReducer, hid, hp]
    rw [findTask_updateAssoc_self]
  · intro x hxid hxp
    simp only [taskReducer, hid, hp]
    rw [findTask_updateAssoc_ne _ _ _ _ hxp, findTask_updateAssoc_ne _ _ _ _ hxid]
  · simp only [taskReducer, hid, hp]
  · simp only [taskReducer, hid, hp]

/-- C5 counterexample: dispatching `SET_PARENT c p` twice with identical arguments
is NOT idempotent — the second call appends a second copy of `0-c` to the parent's
`childIds`, so the resulting store state differs from the single-call state. -/
theorem C5_counterexample :
    setParentTwiceState ≠ setParentOnceState ∧
    (findTask setParentOnceState.tasks "0-p").map Task.childIds = some ["0-c"] ∧
    (findTask setParentTwiceState.tasks "0-p").map Task.childIds =
      some ["0-c", "0-c"] := by
  decide

/-- C5 amended: one `setParent(id, p)` (both existing, distinct) records `p` as the
task's parent, appends `id` once to `p`'s `childIds` and filters `id` out of
`rootTaskIds`; a second identical call changes nothing except appending a SECOND
copy of `id` to `p`'s `childIds` (so it is not idempotent); and a later
`setParent(id, q)` naming a different existing parent is not a no-op: it
overwrites the task's `parentId` to `q` and appends `id` to `q`'s `childIds`,
while `p`'s entry (still holding `id`) is untouched. -/
theorem C5_setParent_not_idempotent (n1 n2 : Nat) (s s1 s2 s3 : TaskState)
    (id p q : TaskId) (task parent qt : Task)
    (hid : findTask s.tasks id = some task)
    (hp : findTask s.tasks p = some parent)
    (hq : findTask s.tasks q = some qt)
    (hne : id ≠ p) (hqid : q ≠ id) (hqp : q ≠ p)
    (hs1 : s1 = taskReducer n1 s (.setParent id p))
    (hs2 : s2 = taskReducer n2 s1 (.setParent id p))
    (hs3 : s3 = taskReducer n2 s1 (.setParent id q)) :
    (findTask s1.tasks id = some { task with parentId := some p } ∧
     findTask s1.tasks p = some { parent with childIds := parent.childIds ++ [id] } ∧
     s1.rootTaskIds = s.rootTaskIds.filter (fun tid => decide (tid ≠ id))) ∧
    (s2.rootTaskIds = s1.rootTaskIds ∧
     s2.completedTaskIds = s1.completedTaskIds ∧
     findTask s2.tasks id = findTask s1.tasks id ∧
     findTask s2.tasks p =
       some { parent with childIds := parent.childIds ++ [id] ++ [id] } ∧
     s2 ≠ s1) ∧
    (findTask s3.tasks id = some { task with parentId := some q } ∧
     findTask s3.tasks q = some { qt with childIds := qt.childIds ++ [id] } ∧
     findTask s3.tasks p = findTask s1.tasks p) := by
  subst hs1
  obtain ⟨hid1, hp1, hother1, hroot1, hcomp1⟩ :=
    setParent_effects n1 s id p task parent hid hp hne
  have hq1 : findTask (taskReducer n1 s (.setParent id p)).tasks q = some qt := by
    rw [hother1 q hqid hqp, hq]
  refine ⟨⟨hid1, hp1, hroot1⟩, ?_, ?_⟩
  · subst hs2
    obtain ⟨hid2, hp2, _hother2, hroot2, hcomp2⟩ :=
      setParent_effects n2 (taskReducer n1 s (.setParent id p)) id p
        { task with parentId := some p }
        { parent with childIds := parent.childIds ++ [id] } hid1 hp1 hne
    refine ⟨?_, hcomp2, ?_, hp2, ?_⟩
    · rw [hroot2, hroot1, filter_idem]
    · rw [hid2, hid1]
    · intro hcontra
      have hcast := congrArg (fun st => findTask st.tasks p) hcontra
      simp only [hp2, hp1] at hcast
      have hrec := Option.some.inj hcast
      have hlist := congrArg Task.childIds hrec
      simp only at hlist
      have hlen := congrArg List.length hlist
      simp [List.length_append] at hlen
  · subst hs3
    obtain ⟨hid3, hq3, hother3, _hroot3, _hcomp3⟩ :=
      setParent_effects n2 (taskReducer n1 s (.setParent id p)) id q
        { task with parentId := some p } qt hid1 hq1 (Ne.symm hqid)
    exact ⟨hid3, hq3, hother3 p (Ne.symm hne) (Ne.symm hqp)⟩

/-- Witness for C5's amended statement on the three-task store: the double call
leaves `0-p` holding two copies of `0-c`, and re-parenting `0-c` under `0-q`
appends it there while `0-p` keeps it. -/
theorem C5_setParent_not_idempotent_witness :
    setParentTwiceState ≠ setParentOnceState ∨
    ((findTask (taskReducer 2 (taskReducer 1 threeTaskState (.setParent "0-c" "0-p"))
        (.setParent "0-c" "0-p")).tasks "0-p" =
      some { freshTask 0 "p" "parent" none with childIds := ["0-c", "0-c"] }) ∧
     (findTask (taskReducer 2 (taskReducer 1 threeTaskState (.setParent "0-c" "0-p"))
        (.setParent "0-c" "0-q")).tasks "0-q" =
      some { freshTask 0 "q" "other" none with childIds := ["0-c"] })) :=
  Or.inr
    ⟨(C5_setParent_not_idempotent 1 2 threeTaskState
        (taskReducer 1 threeTaskState (.setParent "0-c" "0-p"))
        (taskReducer 2 (taskReducer 1 threeTaskState (.setParent "0-c" "0-p"))
          (.setParent "0-c" "0-p"))
        (taskReducer 2 (taskReducer 1 threeTaskState (.setParent "0-c" "0-p"))
          (.setParent "0-c" "0-q"))
        "0-c" "0-p" "0-q"
        (freshTask 0 "c" "child" none) (freshTask 0 "p" "parent" none)
        (freshTask 0 "q" "other" none)
        (by decide) (by decide) (by decide) (by decide) (by decide) (by decide)
        rfl rfl rfl).2.1.2.2.2.1,
     (C5_setParent_not_idempotent 1 2 threeTaskState
        (taskReducer 1 threeTaskState (.setParent "0-c" "0-p"))
        (taskReducer 2 (taskReducer 1 threeTaskState (.setParent "0-c" "0-p"))
          (.setParent "0-c" "0-p"))
        (taskReducer 2 (taskReducer 1 threeTaskState (.setParent "0-c" "0-p"))
          (.setParent "0-c" "0-q"))
        "0-c" "0-p" "0-q"
        (freshTask 0 "c" "child" none) (freshTask 0 "p" "parent" none)
        (freshTask 0 "q" "other" none)
        (by decide) (by decide) (by decide) (by decide) (by decide) (by decide)
        rfl rfl rfl).2.2.2.1⟩

/-- C8 counterexample: `execute` does not resolve with the body's result.  The
source awaits `fn()` and discards the value, so a body resolving with `42`
produces an `execute` promise that resolves with `undefined`. -/
theorem C8_counterexample :
    (execute 1 2 (some "0-t") (.ok (some 42)) oneTaskState).1 = .resolved none ∧
    (execute 1 2 (some "0-t") (.ok (some 42)) oneTaskState).1 ≠
      .resolved (some 42) := by
  decide

/-- C8 amended: with no registered id `execute` raises the not-initialized error
and performs no store transition; otherwise it dispatches `start`, and on body
success dispatches `complete` (appending the id to `completedTaskIds`) and
resolves with `undefined` — NOT the body's result; on body failure it dispatches
`fail` with the normalized error and re-raises the original thrown value, never
swallowing it. -/
theorem C8_execute_spec (t1 t2 : Nat) (s : TaskState) (id : TaskId)
    (v : Option Nat) (e : Thrown) (b : Except Thrown (Option Nat)) (t : Task)
    (h : findTask s.tasks id = some t) :
    execute t1 t2 none b s = (.notInitialized, s) ∧
    execute t1 t2 (some id) (.ok v) s =
      (.resolved none,
        taskReducer t2 (taskReducer t1 s (.startTask id)) (.completeTask id)) ∧
    (execute t1 t2 (some id) (.ok v) s).2.completedTaskIds =
      s.completedTaskIds ++ [id] ∧
    findTask (execute t1 t2 (some id) (.ok v) s).2.tasks id =
      some { t with status := .completed, startTime := some t1, endTime := some t2 } ∧
    execute t1 t2 (some id) (.error e) s =
      (.rejected e,
        taskReducer t2 (taskReducer t1 s (.startTask id))
          (.failTask id (normalizeError e))) ∧
    findTask (execute t1 t2 (some id) (.error e) s).2.tasks id =
      some { t with status := .failed, error := some (normalizeError e),
                    startTime := some t1, endTime := some t2 } := by
  have h1 : findTask (taskReducer t1 s (.startTask id)).tasks id =
      some { t with status := .running, startTime := some t1 } := by
    simp [taskReducer, h, findTask_updateAssoc_self]
  refine ⟨?_, rfl, ?_, ?_, rfl, ?_⟩
  · cases b <;> rfl
  · simp [execute, taskReducer, h, h1, findTask_updateAssoc_self]
  · simp [execute, taskReducer, h, h1, findTask_updateAssoc_self]
  · simp [execute, taskReducer, h, h1, findTask_updateAssoc_self]

/-- Witness for C8's amended statement: the registered task `0-t`, a body
resolving with `42`, and a body throwing a non-`Error` value. -/
theorem C8_execute_spec_witness :
    findTask oneTaskState.tasks "0-t" = some (freshTask 0 "t" "work" none) ∧
    (execute 1 2 none (.ok (some 42)) oneTaskState = (.notInitialized, oneTaskState) ∧
     findTask (execute 1 2 (some "0-t") (.ok (some 42)) oneTaskState).2.tasks "0-t" =
       some { freshTask 0 "t" "work" none with
                status := .completed, startTime := some 1, endTime := some 2 } ∧
     findTask (execute 1 2 (some "0-t") (.error (.otherValue "boom")) oneTaskState).2.tasks "0-t" =
       some { freshTask 0 "t" "work" none with
                status := .failed, error := some "boom",
                startTime := some 1, endTime := some 2 }) :=
  ⟨by decide,
   (C8_execute_spec 1 2 oneTaskState "0-t" (some 42) (.otherValue "boom")
      (.ok (some 42)) (freshTask 0 "t" "work" none) (by decide)).1,
   (C8_execute_spec 1 2 oneTaskState "0-t" (some 42) (.otherValue "boom")
      (.ok (some 42)) (freshTask 0 "t" "work" none) (by decide)).2.2.2.1,
   (C8_execute_spec 1 2 oneTaskState "0-t" (some 42) (.otherValue "boom")
      (.ok (some 42)) (freshTask 0 "t" "work" none) (by decide)).2.2.2.2.2⟩

/-- A status/timestamp-only entry update (same `childIds`) preserves the
single-link invariant, whatever happens to `completedTaskIds`. -/
theorem linkInvariant_update_same (s : TaskState) (id : TaskId) (t v : Task)
    (hfind : findTask s.tasks id = some t) (hsame : v.childIds = t.childIds)
    (hinv : linkInvariant s) (comps : List TaskId) :
    linkInvariant
      { tasks := updateAssoc s.tasks id v
        rootTaskIds := s.rootTaskIds
        completedTaskIds := comps } := by
  intro x
  have hocc := childOcc_updateAssoc_some s.tasks id v t x hfind
  rw [hsame] at hocc
  have hsome : (findTask (updateAssoc s.tasks id v) x).isSome =
      (findTask s.tasks x).isSome := by
    by_cases hx : x = id
    · rw [hx, findTask_updateAssoc_self, hfind]
      rfl
    · rw [findTask_updateAssoc_ne _ _ _ _ hx]
  have hx0 := hinv x
  simp only [linkOcc] at hx0 ⊢
  rw [hsome]
  cases hb : (findTask s.tasks x).isSome <;> simp [hb] at hx0 ⊢ <;> omega

/-- Under the disciplined histories of `CleanReach`, the single-link invariant
holds in every reachable state. -/
theorem cleanReach_linkInvariant (s : TaskState) (h : CleanReach s) :
    linkInvariant s := by
  induction h with
  | empty =>
    intro x
    simp [linkOcc, countId, childOcc, emptyState, findTask]
  | register s task now hreach hfresh hpar hchild ih =>
    intro x
    have hupd : updateAssoc s.tasks task.id task = s.tasks ++ [(task.id, task)] :=
      updateAssoc_of_none _ _ _ hfresh
    have hred : taskReducer now s (.registerTask task) =
        { tasks := s.tasks ++ [(task.id, task)]
          rootTaskIds := s.rootTaskIds ++ [task.id]
          completedTaskIds := s.completedTaskIds } := by
      simp [taskReducer, hpar, hupd]
    rw [hred]
    simp only [linkOcc, countId_append, childOcc_append]
    have hnew : childOcc x [(task.id, task)] = 0 := by
      simp [childOcc, hchild, countId]
    by_cases hx : x = task.id
    · rw [hx]
      have h0 := ih task.id
      rw [hfresh] at h0
      simp only [linkOcc] at h0
      simp only [Option.isSome_none, Bool.false_eq_true, if_false] at h0
      have hfind2 : findTask (s.tasks ++ [(task.id, task)]) task.id = some task := by
        rw [← hupd]
        exact findTask_updateAssoc_self _ _ _
      rw [hfind2]
      have hone : countId task.id [task.id] = 1 := by
        simp [countId]
      have hnew2 : childOcc task.id [(task.id, task)] = 0 := by
        simp [childOcc, hchild, countId]
      rw [hone, hnew2]
      simp only [Option.isSome_some, if_true]
      omega
    · have hfind2 : findTask (s.tasks ++ [(task.id, task)]) x = findTask s.tasks x := by
        rw [← hupd]
        exact findTask_updateAssoc_ne _ _ _ _ hx
      rw [hfind2]
      have h0 := ih x
      simp only [linkOcc] at h0
      have hc1 : countId x [task.id] = 0 := by
        simp [countId, Ne.symm hx]
      rw [hc1, hnew]
      cases hb : (findTask s.tasks x).isSome <;> simp [hb] at h0 ⊢ <;> omega
  | start s id now hreach ih =>
    cases hfind : findTask s.tasks id with
    | none =>
      have hno : taskReducer now s (.startTask id) = s := by
        simp [taskReducer, hfind]
      rw [hno]
      exact ih
    | some t =>
      have hred : taskReducer now s (.startTask id) =
          { tasks := updateAssoc s.tasks id
              { t with status := .running, startTime := some now }
            rootTaskIds := s.rootTaskIds
            completedTaskIds := s.completedTaskIds } := by
        simp [taskReducer, hfind]
      rw [hred]
      exact linkInvariant_update_same s id t
        { t with status := .running, startTime := some now } hfind rfl ih
        s.completedTaskIds
  | complete s id now hreach ih =>
    cases hfind : findTask s.tasks id with
    | none =>
      have hno : taskReducer now s (.completeTask id) = s := by
        simp [taskReducer, hfind]
      rw [hno]
      exact ih
    | some t =>
      have hred : taskReducer now s (.completeTask id) =
          { tasks := updateAssoc s.tasks id
              { t with status := .completed, endTime := some now }
            rootTaskIds := s.rootTaskIds
            completedTaskIds := s.completedTaskIds ++ [id] } := by
        simp [taskReducer, hfind]
      rw [hred]
      exact linkInvariant_update_same s id t
        { t with status := .completed, endTime := some now } hfind rfl ih
        (s.completedTaskIds ++ [id])
  | fail s id err now hreach ih =>
    cases hfind : findTask s.tasks id with
    | none =>
      have hno : taskReducer now s (.failTask id err) = s := by
        simp [taskReducer, hfind]
      rw [hno]
      exact ih
    | some t =>
      have hred : taskReducer now s (.failTask id err) =
          { tasks := updateAssoc s.tasks id
              { t with status := .failed, error := some err, endTime := some now }
            rootTaskIds := s.rootTaskIds
            completedTaskIds := s.completedTaskIds } := by
        simp [taskReducer, hfind]
      rw [hred]
      exact linkInvariant_update_same s id t
        { t with status := .failed, error := some err, endTime := some now } hfind rfl ih
        s.completedTaskIds
  | reparent s id p now hreach hne hmem ih =>
    cases hfid : findTask s.tasks id with
    | none =>
      have hno : taskReducer now s (.setParent id p) = s := by
        simp [taskReducer, hfid]
      rw [hno]
      exact ih
    | some task =>
      cases hfp : findTask s.tasks p with
      | none =>
        have hno : taskReducer now s (.setParent id p) = s := by
          simp [taskReducer, hfid, hfp]
        rw [hno]
        exact ih
      | some parent =>
        intro x
        have hred : taskReducer now s (.setParent id p) =
            { tasks := updateAssoc
                (updateAssoc s.tasks id { task with parentId := some p }) p
                { parent with childIds := parent.childIds ++ [id] }
              rootTaskIds := s.rootTaskIds.filter (fun tid => decide (tid ≠ id))
              completedTaskIds := s.completedTaskIds } := by
          simp [taskReducer, hfid, hfp]
        rw [hred]
        simp only [linkOcc]
        have hinner_find_p :
            findTask (updateAssoc s.tasks id { task with parentId := some p }) p =
              some parent := by
          rw [findTask_updateAssoc_ne _ _ _ _ (Ne.symm hne), hfp]
        have hinnerOcc : ∀ y,
            childOcc y (updateAssoc s.tasks id { task with parentId := some p }) =
              childOcc y s.tasks := by
          intro y
          have h2 := childOcc_updateAssoc_some s.tasks id
            { task with parentId := some p } task y hfid
          have hch : ({ task with parentId := some p } : Task).childIds =
              task.childIds := rfl
          rw [hch] at h2
          omega
        have houter : ∀ y,
            childOcc y (updateAssoc
              (updateAssoc s.tasks id { task with parentId := some p }) p
              { parent with childIds := parent.childIds ++ [id] }) =
              childOcc y s.tasks + countId y [id] := by
          intro y
          have h2 := childOcc_updateAssoc_some
            (updateAssoc s.tasks id { task with parentId := some p }) p
            { parent with childIds := parent.childIds ++ [id] } parent y hinner_find_p
          have hch : ({ parent with childIds := parent.childIds ++ [id] } : Task).childIds =
              parent.childIds ++ [id] := rfl
          rw [hch, countId_append, hinnerOcc y] at h2
          omega
        rw [houter x]
        by_cases hxid : x = id
        · rw [hxid]
          have hfind2 : findTask (updateAssoc
              (updateAssoc s.tasks id { task with parentId := some p }) p
              { parent with childIds := parent.childIds ++ [id] }) id =
              some { task with parentId := some p } := by
            rw [findTask_updateAssoc_ne _ _ _ _ hne, findTask_updateAssoc_self]
          rw [hfind2]
          have h0 := ih id
          rw [hfid] at h0
          simp only [linkOcc, Option.isSome_some, if_true] at h0
          have hpos := countId_pos_of_mem id s.rootTaskIds hmem
          have hcf := countId_filter_self id s.rootTaskIds
          have hone : countId id [id] = 1 := by
            simp [countId]
          rw [hcf, hone]
          simp only [Option.isSome_some, if_true]
          omega
        · by_cases hxp : x = p
          · rw [hxp]
            have hfind2 : findTask (updateAssoc
                (updateAssoc s.tasks id { task with parentId := some p }) p
                { parent with childIds := parent.childIds ++ [id] }) p =
                some { parent with childIds := parent.childIds ++ [id] } :=
              findTask_updateAssoc_self _ _ _
            rw [hfind2]
            have h0 := ih p
            rw [hfp] at h0
            simp only [linkOcc, Option.isSome_some, if_true] at h0
            have hpid : p ≠ id := by
              rw [← hxp]
              exact hxid
            have hcf := countId_filter_other id p s.rootTaskIds hpid
            have hc1 : countId p [id] = 0 := by
              simp [countId, hne]
            rw [hcf, hc1]
            simp only [Option.isSome_some, if_true]
            omega
          · have hfind2 : findTask (updateAssoc
                (updateAssoc s.tasks id { task with parentId := some p }) p
                { parent with childIds := parent.childIds ++ [id] }) x =
                findTask s.tasks x := by
              rw [findTask_updateAssoc_ne _ _ _ _ hxp,
                findTask_updateAssoc_ne _ _ _ _ hxid]
            rw [hfind2]
            have h0 := ih x
            simp only [linkOcc] at h0
            have hcf := countId_filter_other id x s.rootTaskIds hxid
            have hc1 : countId x [id] = 0 := by
              simp [countId, Ne.symm hxid]
            rw [hcf, hc1]
            cases hb : (findTask s.tasks x).isSome <;> simp [hb] at h0 ⊢ <;> omega

/-- C7 counterexample: registering a task whose registration already names a
`parentId` (here `0-c` under the existing `0-p`) leaves it registered but
referenced NOWHERE — it is in neither `rootTaskIds` nor any task's `childIds`,
falsifying "each task appears in exactly one of the two". -/
theorem C7_counterexample :
    (findTask childRegisteredState.tasks "0-c").isSome = true ∧
    countId "0-c" childRegisteredState.rootTaskIds = 0 ∧
    childOcc "0-c" childRegisteredState.tasks = 0 := by
  decide

/-- C7 amended: in every store state reached from the empty store by parentless
fresh registrations, `setParent` calls whose child is currently a root and
differs from the parent, and arbitrary `start`/`complete`/`fail` dispatches,
every registered task is referenced exactly once: either once in `rootTaskIds`
and in no `childIds`, or never in `rootTaskIds` and exactly once across all
`childIds` — never both.  (Registration carrying a `parentId` breaks this, per
the counterexample.) -/
theorem C7_single_link (s : TaskState) (h : CleanReach s) (id : TaskId) (t : Task)
    (hmem : findTask s.tasks id = some t) :
    (countId id s.rootTaskIds = 1 ∧ childOcc id s.tasks = 0) ∨
    (countId id s.rootTaskIds = 0 ∧ childOcc id s.tasks = 1) := by
  have hinv := cleanReach_linkInvariant s h id
  rw [hmem] at hinv
  simp only [linkOcc, Option.isSome_some, if_true] at hinv
  omega

/-- Witness for C7's amended statement: the store reached by registering `0-p`
and `0-c` parentless and then linking `0-c` under `0-p`, instantiated at the
child id. -/
theorem C7_single_link_witness :
    (countId "0-c" setParentOnceState.rootTaskIds = 1 ∧
      childOcc "0-c" setParentOnceState.tasks = 0) ∨
    (countId "0-c" setParentOnceState.rootTaskIds = 0 ∧
      childOcc "0-c" setParentOnceState.tasks = 1) :=
  C7_single_link setParentOnceState
    (CleanReach.reparent twoTaskState "0-c" "0-p" 1
      (CleanReach.register
        (taskReducer 0 emptyState (.registerTask (freshTask 0 "p" "parent" none)))
        (freshTask 0 "c" "child" none) 0
        (CleanReach.register emptyState (freshTask 0 "p" "parent" none) 0
          CleanReach.empty (by decide) rfl rfl)
        (by decide) rfl rfl)
      (by decide) (by decide))
    "0-c" { freshTask 0 "c" "child" none with parentId := some "0-p" } (by decide)

end Scripter
